import Mathlib

/-!
# Verification of the PV forecasting core

Shallow embedding of the feature-engineering and recursive-forecasting core
of the repository:

* `src/app/services/forecast_service.py` — `CyclicalFeatures` (the composite
  cyclical/lag transformer), `train_model`, `predict_future`;
* `src/app/core/calculator.py` — the leap-aware `CyclicalFeatures`
  transformer and its instantiation in `compute`.

Modelling conventions:

* A pandas `DataFrame` with a datetime index is a `List Row`; a `Row` holds
  the timestamp of the index entry plus an association list of named cells.
  A cell is an `Option RVal`: `none` models a pandas `NaN`.
* Numeric cell values are `RVal`: either a rational number (machine floats
  are rationals) or a symbolic sine/cosine term; `RVal.denotes` interprets
  a value as the real number the Python code computes with `np.sin` /
  `np.cos`.  This keeps every program definition executable while retaining
  the real-number semantics of the encodings.
* Column labels are the inductive `ColName`, mirroring the string labels the
  Python code builds (`"dt_hour"`, `f"{pv}_lag_{k}"`, `f"{col}_{period}_sin"`,
  and plain data-column names).  The generated labels are pairwise distinct
  in the source (distinct format strings), which the inductive encodes; a
  user data column that happens to collide with a generated label is not
  modelled.
* sklearn's fitted scaler + regressor (an external plug-in per the spec) is
  an opaque function `Row → ℚ`.
* Fallible code returns `Except`; the error enumerations list both the
  failure modes the Python source actually produces (unbound local, sklearn
  "0 samples", pandas frame-construction length mismatch, IndexError) and
  the named errors of the spec's taxonomy, so that theorems can compare the
  two.
-/

/-- Calendar timestamp of a pandas `DatetimeIndex` entry, at hour
resolution (the repository's series are hourly). -/
structure Timestamp where
  year : ℕ
  month : ℕ
  day : ℕ
  hour : ℕ
deriving DecidableEq

instance : Inhabited Timestamp := ⟨⟨1970, 1, 1, 0⟩⟩

/-- Gregorian leap-year test, as `pandas.DatetimeIndex.is_leap_year`. -/
def isLeapYear (y : ℕ) : Bool :=
  (y % 4 == 0 && y % 100 != 0) || y % 400 == 0

/-- Days in the months strictly before month `m` of a non-leap year. -/
def cumDaysBefore (m : ℕ) : ℕ :=
  match m with
  | 1 => 0 | 2 => 31 | 3 => 59 | 4 => 90 | 5 => 120 | 6 => 151
  | 7 => 181 | 8 => 212 | 9 => 243 | 10 => 273 | 11 => 304 | 12 => 334
  | _ => 0

/-- Day of year, 1-based, as `pandas.DatetimeIndex.dayofyear`. -/
def dayOfYear (ts : Timestamp) : ℕ :=
  cumDaysBefore ts.month + (if isLeapYear ts.year ∧ 3 ≤ ts.month then 1 else 0) + ts.day

/-- Days since 1970-01-01 of a civil date (standard civil-calendar count,
used only to model `pandas.DatetimeIndex.weekday`). -/
def daysFromCivil (y : ℤ) (m d : ℕ) : ℤ :=
  let y2 : ℤ := if m ≤ 2 then y - 1 else y
  let era : ℤ := (if 0 ≤ y2 then y2 else y2 - 399) / 400
  let yoe : ℤ := y2 - era * 400
  let mp : ℤ := (((m : ℤ) + 9) % 12)
  let doy : ℤ := (153 * mp + 2) / 5 + (d : ℤ) - 1
  let doe : ℤ := yoe * 365 + yoe / 4 - yoe / 100 + doy
  era * 146097 + doe - 719468

/-- Weekday with Monday = 0, as `pandas.DatetimeIndex.weekday`
(1970-01-01 was a Thursday, weekday 3). -/
def tsWeekday (ts : Timestamp) : ℕ :=
  ((daysFromCivil (ts.year : ℤ) ts.month ts.day + 3) % 7).toNat

/-- Strictly monotone key of a (valid) timestamp, used to state
time-ordering of an index. -/
def tsKey (ts : Timestamp) : ℕ :=
  (ts.year * 400 + dayOfYear ts) * 24 + ts.hour

/-- Chronological order on timestamps. -/
def tsLt (a b : Timestamp) : Prop := tsKey a < tsKey b

instance (a b : Timestamp) : Decidable (tsLt a b) := by
  unfold tsLt; infer_instance

/-- A numeric value of a data-frame cell: a rational number, or a symbolic
sine/cosine of a rational multiple of π (`np.sin(a·π)` / `np.cos(a·π)`). -/
inductive RVal where
  | num (q : ℚ)
  | sinv (a : ℚ)
  | cosv (a : ℚ)
deriving DecidableEq

/-- Interpretation of a cell value as the real number the Python code
computes (`np.sin`/`np.cos` applied to `a·π`). -/
def RVal.denotes : RVal → ℝ → Prop
  | .num q, x => x = (q : ℝ)
  | .sinv a, x => x = Real.sin ((a : ℝ) * Real.pi)
  | .cosv a, x => x = Real.cos ((a : ℝ) * Real.pi)

/-- Column labels.  `named s` is a raw data column named `s` (weather
columns, the target column `pv_output`); the `dt_*` constructors are the
labels the transformer in `forecast_service.py` writes; `lag k` is the
label `f"{pv_output}_lag_{k}"` of that transformer; `calcSin`/`calcCos`
are the labels `f"{col}_{period}_sin"` / `_cos` written by the transformer
in `calculator.py`. -/
inductive ColName where
  | named (s : String)
  | dt_hour | dt_dayofyear | dt_month
  | dt_hour_sin | dt_hour_cos
  | dt_dayofyear_sin | dt_dayofyear_cos
  | dt_month_sin | dt_month_cos
  | lag (k : ℕ)
  | calcSin (col period : String)
  | calcCos (col period : String)
deriving DecidableEq

/-- A cell of a data frame; `none` models a pandas `NaN`. -/
abbrev Cell := Option RVal

/-- One row of a timestamp-indexed data frame. -/
structure Row where
  ts : Timestamp
  cells : List (ColName × Cell)
deriving DecidableEq

instance : Inhabited Row := ⟨⟨default, []⟩⟩

/-- A pandas `DataFrame` with datetime index: a list of rows. -/
abbrev Frame := List Row

/-- Look a column up in a row's cells; a missing column reads as `NaN`
(claims never exercise the missing-column `KeyError` path). -/
def lookupCell (c : ColName) : List (ColName × Cell) → Cell
  | [] => none
  | p :: ps => if p.1 = c then p.2 else lookupCell c ps

/-- Does the row have a cell for column `c`? -/
def hasCol (c : ColName) : List (ColName × Cell) → Bool
  | [] => false
  | p :: ps => p.1 = c || hasCol c ps

/-- Replace every cell of column `c` by `v`. -/
def setCells (c : ColName) (v : Cell) : List (ColName × Cell) → List (ColName × Cell)
  | [] => []
  | p :: ps => if p.1 = c then (c, v) :: setCells c v ps else p :: setCells c v ps

/-- Pandas column assignment `df[c] = v` restricted to one row: overwrite
the column if present, else append it as the last column. -/
def Row.set (r : Row) (c : ColName) (v : Cell) : Row :=
  if hasCol c r.cells then ⟨r.ts, setCells c v r.cells⟩
  else ⟨r.ts, r.cells ++ [(c, v)]⟩

/-- Pandas column assignment on a bare cell list: overwrite the column if
present, else append it as the last column. -/
def setCellList (c : ColName) (v : Cell) (l : List (ColName × Cell)) :
    List (ColName × Cell) :=
  if hasCol c l then setCells c v l else l ++ [(c, v)]

/-- Pandas `df.drop(columns=[c])` restricted to one row. -/
def delCol (c : ColName) (r : Row) : Row :=
  ⟨r.ts, r.cells.filter (fun p => ¬ p.1 = c)⟩

/-- Read the raw data column named `pv` from a row. -/
def getCol (pv : String) (r : Row) : Cell :=
  lookupCell (.named pv) r.cells

/-! ## The composite transformer of `forecast_service.py`

`CyclicalFeatures.transform` (forecast_service.py lines 18–41): add the
raw calendar columns, their sin/cos encodings (the day-of-year pair with
the hard-coded denominator 365), the `n_lags` lag columns shifted from the
target, drop the rows whose lag window is incomplete, then drop the raw
target column. -/

/-- Lines 21–30 of `forecast_service.py`: the calendar columns and their
sinusoidal encodings.  `sin(2π·v/p)` is recorded as `RVal.sinv (2*v/p)`
(the sine of `(2*v/p)·π`).  The day-of-year denominator is the literal
`365` of lines 27–28. -/
def addDt (r : Row) : Row :=
  let h : ℚ := r.ts.hour
  let doy : ℚ := dayOfYear r.ts
  let mo : ℚ := r.ts.month
  ((((((((r.set .dt_hour (some (.num h))).set
      .dt_dayofyear (some (.num doy))).set
      .dt_month (some (.num mo))).set
      .dt_hour_sin (some (.sinv (2 * h / 24)))).set
      .dt_hour_cos (some (.cosv (2 * h / 24)))).set
      .dt_dayofyear_sin (some (.sinv (2 * doy / 365)))).set
      .dt_dayofyear_cos (some (.cosv (2 * doy / 365)))).set
      .dt_month_sin (some (.sinv (2 * mo / 12)))).set
      .dt_month_cos (some (.cosv (2 * mo / 12)))

/-- Value of `df[pv].shift(k)` at row position `j`, where `t` is the target
column in original order: `NaN` for the first `k` positions. -/
def shiftVal (t : List Cell) (k j : ℕ) : Cell :=
  if k ≤ j then t.getD (j - k) none else none

/-- Lines 32–33 of `forecast_service.py`: append the `n` lag columns to the
row at position `j`. -/
def addLags (n : ℕ) (t : List Cell) (j : ℕ) (r : Row) : Row :=
  (List.range n).foldl (fun acc i => acc.set (.lag (i + 1)) (shiftVal t (i + 1) j)) r

/-- The fully augmented row at position `j` (calendar + sinusoidal + lag
columns), before the `dropna`. -/
def featRow (n : ℕ) (t : List Cell) (j : ℕ) (r : Row) : Row :=
  addLags n t j (addDt r)

/-- The `dropna(subset=lag_cols)` predicate of line 36: all `n` lag cells
of the row are non-null. -/
def lagsComplete (n : ℕ) (r : Row) : Bool :=
  (List.range n).all (fun i => (lookupCell (.lag (i + 1)) r.cells).isSome)

/-- Pair each element with its position, starting at `k` (row positions of
a frame). -/
def zipIdxFrom (k : ℕ) : List α → List (ℕ × α)
  | [] => []
  | a :: l => (k, a) :: zipIdxFrom (k + 1) l

/-- The composite `CyclicalFeatures.transform` of `forecast_service.py` (lines 18–41):
calendar/sinusoidal columns, lag columns shifted from the target column
`pv`, `dropna` on the lag columns, and removal of the raw target column. -/
def cyclicalTransform (pv : String) (n : ℕ) (X : Frame) : Frame :=
  let t := X.map (getCol pv)
  let withFeat := (zipIdxFrom 0 X).map (fun p => featRow n t p.1 p.2)
  (withFeat.filter (lagsComplete n)).map (delCol (.named pv))

/-! ## Pandas slicing helpers used by `train_model` / `predict_future` -/

/-- Pandas `df.tail(k)`: the last `min k len` rows. -/
def pandasTail (k : ℕ) (xs : List α) : List α :=
  xs.drop (xs.length - k)

/-- Positional slicing `xs.iloc[a:b]` (empty when `a ≥ len`, never an
error). -/
def ilocSlice (a b : ℕ) (xs : List α) : List α :=
  (xs.drop a).take (b - a)

/-- Negative slicing `xs.iloc[-k:]` — note the Python pitfall: `-0 == 0`, so for `k = 0`
this is `xs.iloc[0:]`, the *whole* sequence, not the empty one. -/
def ilocNeg (k : ℕ) (xs : List α) : List α :=
  if k = 0 then xs else xs.drop (xs.length - k)

/-! ## `train_model` (forecast_service.py lines 43–82) -/

/-- The regressor class names registered in the `if/elif` chain of
`train_model` (lines 54–65). -/
def registeredRegressors : List String :=
  ["LinearRegression", "Ridge", "Lasso", "DecisionTreeRegressor",
   "RandomForestRegressor", "GradientBoostingRegressor", "SVR",
   "KNeighborsRegressor", "MLPRegressor"]

/-- The `if/elif` chain of lines 54–65: module resolution by model name.
There is no final `else`, so an unknown name leaves the local variable
`module` unassigned, which makes the following `getattr(module, model_name)`
raise `UnboundLocalError`; this is modelled by `none`. -/
def resolveModule (model_name : String) : Option String :=
  if model_name ∈ ["LinearRegression", "Ridge", "Lasso"] then
    some "sklearn.linear_model"
  else if model_name ∈ ["DecisionTreeRegressor"] then some "sklearn.tree"
  else if model_name ∈ ["RandomForestRegressor", "GradientBoostingRegressor"] then
    some "sklearn.ensemble"
  else if model_name ∈ ["SVR"] then some "sklearn.svm"
  else if model_name ∈ ["KNeighborsRegressor"] then some "sklearn.neighbors"
  else if model_name ∈ ["MLPRegressor"] then some "sklearn.neural_network"
  else none

/-- Failure modes of `train_model`.  The first two are what the Python
source actually raises; `unknownRegressorKind` is the dedicated error of
the spec's taxonomy (§7), which the source never produces. -/
inductive TrainError where
  | unboundLocalModule
  | emptyTrainingData
  | fitLengthMismatch
  | unknownRegressorKind
deriving DecidableEq

/-- The dictionary `train_model` returns on success (line 82). -/
structure TrainedResult where
  status : String
  model_path : String
deriving DecidableEq

/-- Line 75: `X_trans = pipeline.named_steps["features"].transform(X)`. -/
def trainXtrans (df : Frame) (pv : String) (n_lags : ℕ) : Frame :=
  cyclicalTransform pv n_lags df

/-- Line 49 and line 76: `y = df[pv_output]`,
`y_aligned = y.iloc[-len(X_trans):]`. -/
def trainYaligned (df : Frame) (pv : String) (n_lags : ℕ) : List Cell :=
  ilocNeg (trainXtrans df pv n_lags).length (df.map (getCol pv))

/-- The trainer `train_model` (lines 43–82).  The sklearn fitting itself is external;
what is modelled is the module resolution, the feature transform, the label
realignment, and the errors sklearn raises during `pipeline.fit` (a
`StandardScaler` refuses 0 samples; a regressor refuses features and
labels of different lengths). -/
def train_model (df : Frame) (pv : String) (model_name : String)
    (model_path : String) (n_lags : ℕ) : Except TrainError TrainedResult :=
  match resolveModule model_name with
  | none => .error .unboundLocalModule
  | some _ =>
    let X_trans := trainXtrans df pv n_lags
    let y_aligned := trainYaligned df pv n_lags
    if X_trans.length = 0 then .error .emptyTrainingData
    else if X_trans.length ≠ y_aligned.length then .error .fitLengthMismatch
    else .ok ⟨"trained", model_path⟩

/-! ## `predict_future` (forecast_service.py lines 84–124) -/

/-- The fitted artifact `joblib.load` hands to `predict_future`: the
transformer's parameters plus the fitted scaler-and-regressor, the latter
an opaque point-prediction function on a single feature row (the spec's
external regressor plug-in). -/
structure FittedPipeline where
  pv_output : String
  n_lags : ℕ
  predictOne : Row → ℚ

/-- Failure modes of `predict_future`.  The first three are what the
Python source actually raises (`IndexError` from `df[pv].iloc[-1]` on an
empty history, sklearn's "0 samples" error from scaling an empty feature
frame, pandas' unequal-column-length error from the final `DataFrame`
constructor); the last two are the dedicated errors of the spec's taxonomy
(§7), which the source never produces. -/
inductive PredictError where
  | emptyHistory
  | emptyFeatures
  | lengthMismatch
  | insufficientFutureData
  | insufficientHistoryTail
deriving DecidableEq

/-- Line 104 right-hand side: `df[pv_output].iloc[-1]`, `none` when the
history frame is empty (Python: `IndexError`). -/
def placeholderCell (pv : String) (df : Frame) : Option Cell :=
  (df.map (getCol pv)).getLast?

/-- Line 103–104: the single-row slice `future_weather.iloc[i:i+1]` with
the placeholder written into the target column. -/
def stepRowSlice (pv : String) (future : Frame) (i : ℕ) (ph : Cell) : Frame :=
  (ilocSlice i (i + 1) future).map (fun r => r.set (.named pv) ph)

/-- Line 108: `pd.concat([df.tail(24), row])` — the hard-coded 24-row
history window concatenated with the placeholder row. -/
def stepConcat (pv : String) (future df : Frame) (i : ℕ) (ph : Cell) : Frame :=
  pandasTail 24 df ++ stepRowSlice pv future i ph

/-- Lines 107–109: the windowed transform, keeping only the last produced
row (`.tail(1)`). -/
def stepFeatures (pv : String) (n_lags : ℕ) (future df : Frame) (i : ℕ) (ph : Cell) : Frame :=
  pandasTail 1 (cyclicalTransform pv n_lags (stepConcat pv future df i ph))

/-- One iteration of the loop of lines 102–120: returns the prediction and
the grown history frame. -/
def predictStep (P : FittedPipeline) (future df : Frame) (i : ℕ) :
    Except PredictError (ℚ × Frame) :=
  match placeholderCell P.pv_output df with
  | none => .error .emptyHistory
  | some ph =>
    match stepFeatures P.pv_output P.n_lags future df i ph with
    | [] => .error .emptyFeatures
    | f :: _ =>
      let y := P.predictOne f
      let new_row := (stepRowSlice P.pv_output future i ph).map
        (fun r => r.set (.named P.pv_output) (some (.num y)))
      .ok (y, df ++ new_row)

/-- The loop `for i in range(steps)` of lines 102–120, starting at step
index `i` with `n` steps left. -/
def runSteps (P : FittedPipeline) (future : Frame) :
    ℕ → ℕ → Frame → Except PredictError (List ℚ)
  | _, 0, _ => .ok []
  | i, n + 1, df =>
    match predictStep P future df i with
    | .error e => .error e
    | .ok (y, df2) =>
      match runSteps P future (i + 1) n df2 with
      | .error e => .error e
      | .ok rest => .ok (y :: rest)

/-- The forecaster `predict_future` (lines 84–124): run the recursive loop on a copy of
the history, then assemble the forecast frame from
`future_weather.index[:steps]` and the collected predictions (the pandas
`DataFrame` constructor raises when the two columns have different
lengths). -/
def predict_future (P : FittedPipeline) (history_df future_weather : Frame)
    (steps : ℕ) : Except PredictError (List (Timestamp × ℚ)) :=
  match runSteps P future_weather 0 steps history_df with
  | .error e => .error e
  | .ok preds =>
    let future_index := (future_weather.map (·.ts)).take steps
    if future_index.length = preds.length then .ok (future_index.zip preds)
    else .error .lengthMismatch

/-! ## The leap-aware transformer of `calculator.py`

`CyclicalFeatures` of `calculator.py` (lines 7–52) works on datetime
*columns* (not the index) and takes a `cycles` mapping whose values are
either a fixed integer period or the sentinel `"leap"`. -/

/-- A value of the `cycles` dictionary: a fixed period length, or the
special string `"leap"` (calculator.py line 16). -/
inductive CyclePeriod where
  | fixed (n : ℕ)
  | leap
deriving DecidableEq

/-- A row of a frame handled by `calculator.py`: datetime-valued columns
(`dts`) plus numeric cells. -/
structure CalcRow where
  dts : List (String × Timestamp)
  cells : List (ColName × Cell)

/-- Attribute extraction `getattr(dt.dt, period)` (calculator.py lines 34–35) for the calendar
attributes the repository uses; an unknown attribute raises
(`AttributeError`), modelled by `none`. -/
def tsAttr (period : String) (ts : Timestamp) : Option ℕ :=
  if period = "hour" then some ts.hour
  else if period = "weekday" then some (tsWeekday ts)
  else if period = "month" then some ts.month
  else if period = "dayofyear" then some (dayOfYear ts)
  else none

/-- Lines 37–43: the per-row denominator.  For the `dayofyear`/`"leap"`
pair it is 366 for leap years and 365 otherwise; a `"leap"` sentinel on any
other attribute would make the arithmetic of lines 49–50 raise, modelled by
`none`. -/
def calcDenom (period : String) (mp : CyclePeriod) (ts : Timestamp) : Option ℕ :=
  if period = "dayofyear" ∧ mp = CyclePeriod.leap then
    some (if isLeapYear ts.year then 366 else 365)
  else
    match mp with
    | .fixed n => some n
    | .leap => none

/-- Lines 45–50 for a single `(period, max_periods)` entry of `cycles`:
append the `f"{col}_{period}_sin"` / `_cos` cells. -/
def calcAddCycle (col : String) (ts : Timestamp) (r : CalcRow)
    (pm : String × CyclePeriod) : Option CalcRow :=
  match tsAttr pm.1 ts, calcDenom pm.1 pm.2 ts with
  | some v, some d =>
    some ⟨r.dts,
      setCellList (.calcCos col pm.1) (some (.cosv (2 * (v : ℚ) / (d : ℚ))))
        (setCellList (.calcSin col pm.1) (some (.sinv (2 * (v : ℚ) / (d : ℚ))))
          r.cells)⟩
  | _, _ => none

/-- The loop over `self.cycles.items()` (lines 31–50) for one datetime
column of one row. -/
def calcAddCycles (col : String) (ts : Timestamp) (cycles : List (String × CyclePeriod))
    (r : CalcRow) : Option CalcRow :=
  cycles.foldlM (calcAddCycle col ts) r

/-- The loop over `self.dt_columns` (lines 28–50) for one row: look each
datetime column up (`X[col]`, a `KeyError` when absent) and append its
cyclical features. -/
def calcRowTransform (dt_columns : List String) (cycles : List (String × CyclePeriod))
    (r : CalcRow) : Option CalcRow :=
  dt_columns.foldlM (fun acc col =>
    match acc.dts.lookup col with
    | none => none
    | some ts => calcAddCycles col ts cycles acc) r

/-- The leap-aware `CyclicalFeatures.transform` of `calculator.py` (lines 25–52), row by
row. -/
def calcTransform (dt_columns : List String) (cycles : List (String × CyclePeriod))
    (X : List CalcRow) : Option (List CalcRow) :=
  X.mapM (calcRowTransform dt_columns cycles)

/-- The `cycles` dictionary built in `compute` (calculator.py lines
71–76). -/
def computeCycles : List (String × CyclePeriod) :=
  [("hour", .fixed 24), ("weekday", .fixed 7), ("month", .fixed 12),
   ("dayofyear", .leap)]

/-! ## Aliasing model of `predict_future`

`predict_future` manipulates pandas frames as heap objects: `.copy()`
allocates a fresh frame, `row[pv] = v` mutates a frame in place, and
`pd.concat` builds a new frame.  To settle the claim that the
caller-supplied `history_df` is never mutated, the same procedure is
embedded once more against an explicit store of frames addressed by
handles; only the frame operations are heap-aware, the feature
computations reuse the pure definitions above. -/

/-- A heap of pandas frames; a handle is an index into `frames`. -/
structure Store where
  frames : List Frame

/-- Dereference a handle. -/
def Store.getF (σ : Store) (h : ℕ) : Frame :=
  σ.frames.getD h []

/-- Allocate a fresh frame (`.copy()` / `pd.concat` results), returning
the new store and the fresh handle. -/
def Store.alloc (σ : Store) (f : Frame) : Store × ℕ :=
  (⟨σ.frames ++ [f]⟩, σ.frames.length)

/-- In-place column assignment `frame[c] = v` on the frame behind handle
`h`. -/
def Store.setColIP (σ : Store) (h : ℕ) (c : ColName) (v : Cell) : Store :=
  ⟨σ.frames.set h ((σ.getF h).map (fun r => r.set c v))⟩

/-- One iteration of the loop of lines 102–120, heap-aware: slice-copy the
future row, mutate its target column in place, compute the features
purely, copy the row again, mutate the copy with the prediction, and
allocate the concatenation as the new history frame.  Returns the
prediction, the handle of the grown history frame, and the store. -/
def predictStepST (P : FittedPipeline) (futH dfH : ℕ) (i : ℕ) (σ : Store) :
    Except PredictError (ℚ × ℕ) × Store :=
  let df := σ.getF dfH
  match placeholderCell P.pv_output df with
  | none => (.error .emptyHistory, σ)
  | some ph =>
    let s1 := σ.alloc (ilocSlice i (i + 1) (σ.getF futH))
    let s2 := s1.1.setColIP s1.2 (.named P.pv_output) ph
    match stepFeatures P.pv_output P.n_lags (σ.getF futH) df i ph with
    | [] => (.error .emptyFeatures, s2)
    | f :: _ =>
      let y := P.predictOne f
      let s3 := s2.alloc (s2.getF s1.2)
      let s4 := s3.1.setColIP s3.2 (.named P.pv_output) (some (.num y))
      let s5 := s4.alloc (s4.getF dfH ++ s4.getF s3.2)
      (.ok (y, s5.2), s5.1)

/-- The heap-aware loop `for i in range(steps)`. -/
def runStepsST (P : FittedPipeline) (futH : ℕ) :
    ℕ → ℕ → ℕ → Store → Except PredictError (List ℚ) × Store
  | _, 0, _, σ => (.ok [], σ)
  | i, n + 1, dfH, σ =>
    match predictStepST P futH dfH i σ with
    | (.error e, σ2) => (.error e, σ2)
    | (.ok (y, dfH2), σ2) =>
      match runStepsST P futH (i + 1) n dfH2 σ2 with
      | (.error e, σ3) => (.error e, σ3)
      | (.ok rest, σ3) => (.ok (y :: rest), σ3)

/-- Heap-aware `predict_future`: `df = history_df.copy()` allocates the
private growing buffer, then the loop runs; the final store is returned
also on failure, so non-mutation can be stated for failing calls too. -/
def predictFutureST (P : FittedPipeline) (histH futH : ℕ) (steps : ℕ)
    (σ : Store) : Except PredictError (List (Timestamp × ℚ)) × Store :=
  let s1 := σ.alloc (σ.getF histH)
  match runStepsST P futH 0 steps s1.2 s1.1 with
  | (.error e, σ2) => (.error e, σ2)
  | (.ok preds, σ2) =>
    let future_index := ((σ2.getF futH).map (·.ts)).take steps
    if future_index.length = preds.length then (.ok (future_index.zip preds), σ2)
    else (.error .lengthMismatch, σ2)

/-! ## Cell-level lemmas -/

@[simp] theorem lookupCell_nil (c : ColName) : lookupCell c [] = none := rfl

@[simp] theorem lookupCell_cons (c : ColName) (p : ColName × Cell) (ps : List (ColName × Cell)) :
    lookupCell c (p :: ps) = if p.1 = c then p.2 else lookupCell c ps := rfl

@[simp] theorem hasCol_nil (c : ColName) : hasCol c [] = false := rfl

@[simp] theorem hasCol_cons (c : ColName) (p : ColName × Cell) (ps : List (ColName × Cell)) :
    hasCol c (p :: ps) = (p.1 = c || hasCol c ps) := rfl

@[simp] theorem setCells_nil (c : ColName) (v : Cell) : setCells c v [] = [] := rfl

@[simp] theorem setCells_cons (c : ColName) (v : Cell) (p : ColName × Cell)
    (ps : List (ColName × Cell)) :
    setCells c v (p :: ps) =
      if p.1 = c then (c, v) :: setCells c v ps else p :: setCells c v ps := rfl

theorem lookupCell_setCells_self (c : ColName) (v : Cell) (l : List (ColName × Cell))
    (h : hasCol c l = true) : lookupCell c (setCells c v l) = v := by
  induction l with
  | nil => simp at h
  | cons p ps ih =>
    by_cases hp : p.1 = c
    · simp [hp]
    · simp [hp] at h
      simp [hp, ih h]

theorem lookupCell_append_right (c : ColName) (l l2 : List (ColName × Cell))
    (h : hasCol c l = false) : lookupCell c (l ++ l2) = lookupCell c l2 := by
  induction l with
  | nil => rfl
  | cons p ps ih =>
    simp at h
    simp [h.1, ih h.2]

theorem lookupCell_set_self (r : Row) (c : ColName) (v : Cell) :
    lookupCell c (r.set c v).cells = v := by
  unfold Row.set
  split
  next h => exact lookupCell_setCells_self c v r.cells h
  next h =>
    show lookupCell c (r.cells ++ [(c, v)]) = v
    rw [lookupCell_append_right c r.cells _ (by simpa using h)]
    simp

theorem lookupCell_setCells_other (c c' : ColName) (v : Cell) (l : List (ColName × Cell))
    (h : c' ≠ c) : lookupCell c' (setCells c v l) = lookupCell c' l := by
  induction l with
  | nil => rfl
  | cons p ps ih =>
    by_cases hp : p.1 = c
    · have hcc : ¬ c = c' := fun hh => h hh.symm
      have hpc : ¬ p.1 = c' := by rw [hp]; exact hcc
      simp [hp, hcc, hpc, ih]
    · simp [hp, ih]

theorem lookupCell_set_other (r : Row) (c c' : ColName) (v : Cell) (h : c' ≠ c) :
    lookupCell c' (r.set c v).cells = lookupCell c' r.cells := by
  unfold Row.set
  split
  · exact lookupCell_setCells_other c c' v r.cells h
  · show lookupCell c' (r.cells ++ [(c, v)]) = _
    induction r.cells with
    | nil =>
      have hcc : ¬ c = c' := fun hh => h hh.symm
      simp [hcc]
    | cons p ps ih =>
      by_cases hp : p.1 = c'
      · simp [hp]
      · simp only [List.cons_append, lookupCell_cons, hp, if_false, ih]

theorem Row.set_ts (r : Row) (c : ColName) (v : Cell) : (r.set c v).ts = r.ts := by
  unfold Row.set; split <;> rfl

theorem delCol_ts (c : ColName) (r : Row) : (delCol c r).ts = r.ts := rfl

theorem lookupCell_delCol_other (c c' : ColName) (r : Row) (h : c' ≠ c) :
    lookupCell c' (delCol c r).cells = lookupCell c' r.cells := by
  show lookupCell c' (r.cells.filter _) = _
  induction r.cells with
  | nil => rfl
  | cons p ps ih =>
    simp only [decide_not] at ih
    by_cases hp : p.1 = c
    · have hcc : ¬ c = c' := fun hh => h hh.symm
      have hpc : ¬ p.1 = c' := by rw [hp]; exact hcc
      simp [List.filter_cons, hp, hpc, hcc, ih, decide_not]
    · simp [List.filter_cons, hp, ih, decide_not]

theorem hasCol_delCol_self (c : ColName) (r : Row) :
    hasCol c (delCol c r).cells = false := by
  show hasCol c (r.cells.filter _) = false
  induction r.cells with
  | nil => rfl
  | cons p ps ih =>
    simp only [decide_not] at ih
    by_cases hp : p.1 = c
    · simpa [List.filter_cons, hp, decide_not] using ih
    · simpa [List.filter_cons, hp, decide_not] using ih

/-! ## Lemmas on the augmented row -/

theorem addDt_ts (r : Row) : (addDt r).ts = r.ts := by
  simp [addDt, Row.set_ts]

theorem addDt_lookup_dt_hour (r : Row) :
    lookupCell .dt_hour (addDt r).cells = some (.num (r.ts.hour : ℚ)) := by
  simp [addDt, lookupCell_set_other, lookupCell_set_self]

theorem addDt_lookup_dt_dayofyear (r : Row) :
    lookupCell .dt_dayofyear (addDt r).cells = some (.num (dayOfYear r.ts : ℚ)) := by
  simp [addDt, lookupCell_set_other, lookupCell_set_self]

theorem addDt_lookup_dt_month (r : Row) :
    lookupCell .dt_month (addDt r).cells = some (.num (r.ts.month : ℚ)) := by
  simp [addDt, lookupCell_set_other, lookupCell_set_self]

theorem addDt_lookup_doy_sin (r : Row) :
    lookupCell .dt_dayofyear_sin (addDt r).cells =
      some (.sinv (2 * (dayOfYear r.ts : ℚ) / 365)) := by
  simp [addDt, lookupCell_set_other, lookupCell_set_self]

theorem addDt_lookup_doy_cos (r : Row) :
    lookupCell .dt_dayofyear_cos (addDt r).cells =
      some (.cosv (2 * (dayOfYear r.ts : ℚ) / 365)) := by
  simp [addDt, lookupCell_set_other, lookupCell_set_self]

theorem addDt_getCol (pv : String) (r : Row) : getCol pv (addDt r) = getCol pv r := by
  simp [addDt, getCol, lookupCell_set_other]

theorem addDt_lookup_lag (k : ℕ) (r : Row) :
    lookupCell (.lag k) (addDt r).cells = lookupCell (.lag k) r.cells := by
  simp [addDt, lookupCell_set_other]

theorem lookupCell_foldl_setLag_not_mem (f : ℕ → Cell) (l : List ℕ) (c : ColName)
    (h : ∀ i ∈ l, ColName.lag (i + 1) ≠ c) (r : Row) :
    lookupCell c ((l.foldl (fun acc i => acc.set (.lag (i + 1)) (f i)) r).cells) =
      lookupCell c r.cells := by
  induction l generalizing r with
  | nil => rfl
  | cons a l2 ih =>
    rw [List.foldl_cons, ih (fun i hi => h i (List.mem_cons_of_mem a hi)),
        lookupCell_set_other _ _ _ _ (Ne.symm (h a (List.mem_cons_self a l2)))]

theorem lookupCell_foldl_setLag_mem (f : ℕ → Cell) (l : List ℕ) (hnd : l.Nodup)
    (i0 : ℕ) (hmem : i0 ∈ l) (r : Row) :
    lookupCell (.lag (i0 + 1))
        ((l.foldl (fun acc i => acc.set (.lag (i + 1)) (f i)) r).cells) = f i0 := by
  induction l generalizing r with
  | nil => cases hmem
  | cons a l2 ih =>
    rw [List.foldl_cons]
    rcases List.mem_cons.mp hmem with rfl | hmem2
    · have hnotin : i0 ∉ l2 := (List.nodup_cons.mp hnd).1
      have hne : ∀ i ∈ l2, ColName.lag (i + 1) ≠ ColName.lag (i0 + 1) := by
        intro i hi hc
        have : i = i0 := by
          have := ColName.lag.inj hc
          omega
        exact hnotin (this ▸ hi)
      rw [lookupCell_foldl_setLag_not_mem f l2 _ hne, lookupCell_set_self]
    · exact ih (List.nodup_cons.mp hnd).2 hmem2 _

theorem foldl_setLag_ts (f : ℕ → Cell) (l : List ℕ) (r : Row) :
    (l.foldl (fun acc i => acc.set (.lag (i + 1)) (f i)) r).ts = r.ts := by
  induction l generalizing r with
  | nil => rfl
  | cons a l2 ih => rw [List.foldl_cons, ih, Row.set_ts]

theorem addLags_ts (n : ℕ) (t : List Cell) (j : ℕ) (r : Row) :
    (addLags n t j r).ts = r.ts :=
  foldl_setLag_ts _ _ r

theorem addLags_lookup_lag (n : ℕ) (t : List Cell) (j k : ℕ) (r : Row)
    (hk1 : 1 ≤ k) (hkn : k ≤ n) :
    lookupCell (.lag k) (addLags n t j r).cells = shiftVal t k j := by
  have hk : k - 1 + 1 = k := Nat.succ_pred_eq_of_pos hk1
  have hmem : k - 1 ∈ List.range n := List.mem_range.mpr (by omega)
  have := lookupCell_foldl_setLag_mem (fun i => shiftVal t (i + 1) j)
    (List.range n) (List.nodup_range n) (k - 1) hmem r
  rw [hk] at this
  exact this

theorem addLags_lookup_other (n : ℕ) (t : List Cell) (j : ℕ) (r : Row) (c : ColName)
    (h : ∀ k, c ≠ ColName.lag k) :
    lookupCell c (addLags n t j r).cells = lookupCell c r.cells :=
  lookupCell_foldl_setLag_not_mem _ _ _ (fun i _ => Ne.symm (h (i + 1))) r

theorem featRow_ts (n : ℕ) (t : List Cell) (j : ℕ) (r : Row) :
    (featRow n t j r).ts = r.ts := by
  rw [featRow, addLags_ts, addDt_ts]

theorem featRow_lookup_lag (n : ℕ) (t : List Cell) (j k : ℕ) (r : Row)
    (hk1 : 1 ≤ k) (hkn : k ≤ n) :
    lookupCell (.lag k) (featRow n t j r).cells = shiftVal t k j :=
  addLags_lookup_lag n t j k (addDt r) hk1 hkn

theorem featRow_getCol (pv : String) (n : ℕ) (t : List Cell) (j : ℕ) (r : Row) :
    getCol pv (featRow n t j r) = getCol pv r := by
  rw [featRow, getCol, addLags_lookup_other _ _ _ _ _ (fun k => by simp), ← getCol,
      addDt_getCol]

/-! ## Indexing lemmas -/

theorem zipIdxFrom_length (k : ℕ) (l : List α) : (zipIdxFrom k l).length = l.length := by
  induction l generalizing k with
  | nil => rfl
  | cons a l2 ih => simp [zipIdxFrom, ih]

theorem zipIdxFrom_getD (k : ℕ) (l : List α) (i : ℕ) (hi : i < l.length)
    (d : α) (dp : ℕ × α) :
    (zipIdxFrom k l).getD i dp = (k + i, l.getD i d) := by
  induction l generalizing k i with
  | nil => simp at hi
  | cons a l2 ih =>
    cases i with
    | zero => simp [zipIdxFrom]
    | succ j =>
      have hj : j < l2.length := by simpa using hi
      have := ih (k + 1) j hj
      simp only [zipIdxFrom, List.getD_cons_succ, this]
      have hk : k + 1 + j = k + (j + 1) := by omega
      rw [hk]

theorem zipIdxFrom_fst_ge (k : ℕ) (l : List α) :
    ∀ p ∈ zipIdxFrom k l, k ≤ p.1 := by
  induction l generalizing k with
  | nil => intro p hp; cases hp
  | cons a l2 ih =>
    intro p hp
    rcases List.mem_cons.mp hp with rfl | hp2
    · exact Nat.le_refl k
    · exact Nat.le_of_succ_le (ih (k + 1) p hp2)

theorem zipIdxFrom_mem (k : ℕ) (l : List α) (d : α) :
    ∀ p ∈ zipIdxFrom k l, p.1 < k + l.length ∧ p.2 = l.getD (p.1 - k) d := by
  induction l generalizing k with
  | nil => intro p hp; cases hp
  | cons a l2 ih =>
    intro p hp
    rcases List.mem_cons.mp hp with rfl | hp2
    · simp
    · have h1 := ih (k + 1) p hp2
      have h2 := zipIdxFrom_fst_ge (k + 1) l2 p hp2
      refine ⟨by simp; omega, ?_⟩
      rw [h1.2]
      have : p.1 - k = (p.1 - (k + 1)) + 1 := by omega
      rw [this, List.getD_cons_succ]

theorem zipIdxFrom_filter_ge (n : ℕ) (l : List α) (k : ℕ) :
    (zipIdxFrom k l).filter (fun p => decide (n ≤ p.1)) =
      if n ≤ k then zipIdxFrom k l else zipIdxFrom n (l.drop (n - k)) := by
  induction l generalizing k with
  | nil => simp [zipIdxFrom]
  | cons a l2 ih =>
    by_cases hk : n ≤ k
    · rw [if_pos hk]
      apply List.filter_eq_self.mpr
      intro p hp
      exact decide_eq_true (Nat.le_trans hk (zipIdxFrom_fst_ge k (a :: l2) p hp))
    · rw [if_neg hk]
      have hkd : ¬ n ≤ k := hk
      simp only [zipIdxFrom, List.filter_cons, decide_eq_true_eq, hkd, if_false]
      rw [ih (k + 1)]
      by_cases hk1 : n ≤ k + 1
      · have : n = k + 1 := by omega
        subst this
        simp
      · rw [if_neg hk1]
        have : n - k = (n - (k + 1)) + 1 := by omega
        rw [this, List.drop_succ_cons]

/-! ## Structural characterization of the transform -/

theorem getD_mem_of_lt (l : List α) (i : ℕ) (d : α) (h : i < l.length) :
    l.getD i d ∈ l := by
  induction l generalizing i with
  | nil => simp at h
  | cons a l2 ih =>
    cases i with
    | zero => simp
    | succ j =>
      simp only [List.getD_cons_succ]
      exact List.mem_cons_of_mem a (ih j (by simpa using h))

theorem lagsComplete_featRow (n : ℕ) (t : List Cell) (j : ℕ) (r : Row) :
    lagsComplete n (featRow n t j r) =
      (List.range n).all (fun i => (shiftVal t (i + 1) j).isSome) := by
  rw [Bool.eq_iff_iff]
  simp only [lagsComplete, List.all_eq_true]
  constructor
  · intro h i hi
    have := h i hi
    rwa [featRow_lookup_lag n t j (i + 1) r (by omega)
      (Nat.succ_le_of_lt (List.mem_range.mp hi))] at this
  · intro h i hi
    rw [featRow_lookup_lag n t j (i + 1) r (by omega)
      (Nat.succ_le_of_lt (List.mem_range.mp hi))]
    exact h i hi

theorem all_shiftVal_eq_ge (n j : ℕ) (t : List Cell) (hj : j < t.length)
    (hall : ∀ c ∈ t, c.isSome = true) :
    (List.range n).all (fun i => (shiftVal t (i + 1) j).isSome) = decide (n ≤ j) := by
  by_cases hnj : n ≤ j
  · rw [decide_eq_true hnj]
    apply List.all_eq_true.mpr
    intro i hi
    have hij : i + 1 ≤ j := Nat.le_trans (Nat.succ_le_of_lt (List.mem_range.mp hi)) hnj
    rw [shiftVal, if_pos hij]
    apply hall
    exact getD_mem_of_lt _ _ _ (by omega)
  · have : decide (n ≤ j) = false := by simpa using hnj
    rw [this]
    apply List.all_eq_false.mpr
    refine ⟨j, List.mem_range.mpr (by omega), ?_⟩
    rw [shiftVal, if_neg (by omega)]
    simp

/-- Under a fully populated target column, `CyclicalFeatures.transform`
keeps exactly the rows from position `n_lags` on, each augmented with its
feature columns and stripped of the target column. -/
theorem cyclicalTransform_eq (pv : String) (n : ℕ) (X : Frame)
    (hall : ∀ c ∈ X.map (getCol pv), c.isSome = true) :
    cyclicalTransform pv n X =
      (zipIdxFrom n (X.drop n)).map
        (fun p => delCol (.named pv) (featRow n (X.map (getCol pv)) p.1 p.2)) := by
  show List.map (delCol (.named pv))
      (List.filter (lagsComplete n)
        (List.map (fun p => featRow n (X.map (getCol pv)) p.1 p.2) (zipIdxFrom 0 X))) = _
  rw [List.filter_map]
  have hcongr : ∀ p ∈ zipIdxFrom 0 X,
      (lagsComplete n ∘ fun p => featRow n (X.map (getCol pv)) p.1 p.2) p =
        decide (n ≤ p.1) := by
    intro p hp
    have hmem := zipIdxFrom_mem 0 X default p hp
    have hj : p.1 < X.length := by simpa using hmem.1
    show lagsComplete n (featRow n (X.map (getCol pv)) p.1 p.2) = _
    rw [lagsComplete_featRow]
    exact all_shiftVal_eq_ge n p.1 (X.map (getCol pv)) (by simpa using hj) hall
  rw [List.filter_congr hcongr, zipIdxFrom_filter_ge]
  by_cases hn : n = 0
  · subst hn
    rw [if_pos (Nat.le_refl 0), List.map_map, List.drop_zero]
    rfl
  · rw [if_neg (by omega), List.map_map, Nat.sub_zero]
    rfl

theorem getD_map_of_lt (f : α → β) (l : List α) (i : ℕ) (h : i < l.length)
    (d : α) (d2 : β) : (l.map f).getD i d2 = f (l.getD i d) := by
  induction l generalizing i with
  | nil => simp at h
  | cons a l2 ih =>
    cases i with
    | zero => rfl
    | succ j => exact ih j (by simpa using h)

theorem getD_drop (l : List α) (n i : ℕ) (d : α) :
    (l.drop n).getD i d = l.getD (n + i) d := by
  induction n generalizing l with
  | zero => rw [List.drop_zero, Nat.zero_add]
  | succ m ih =>
    cases l with
    | nil => simp
    | cons a l2 =>
      rw [List.drop_succ_cons, ih l2]
      have : m + 1 + i = (m + i) + 1 := by omega
      rw [this, List.getD_cons_succ]

theorem cyclicalTransform_length (pv : String) (n : ℕ) (X : Frame)
    (hall : ∀ c ∈ X.map (getCol pv), c.isSome = true) :
    (cyclicalTransform pv n X).length = X.length - n := by
  rw [cyclicalTransform_eq pv n X hall, List.length_map, zipIdxFrom_length,
      List.length_drop]

theorem cyclicalTransform_getD (pv : String) (n : ℕ) (X : Frame)
    (hall : ∀ c ∈ X.map (getCol pv), c.isSome = true) (i : ℕ)
    (hi : i < X.length - n) :
    (cyclicalTransform pv n X).getD i default =
      delCol (.named pv)
        (featRow n (X.map (getCol pv)) (n + i) (X.getD (n + i) default)) := by
  rw [cyclicalTransform_eq pv n X hall]
  rw [getD_map_of_lt _ _ i (by rw [zipIdxFrom_length, List.length_drop]; exact hi)
    ((n + i, default)) default]
  rw [zipIdxFrom_getD n (X.drop n) i (by rw [List.length_drop]; exact hi) default,
      getD_drop]

/-! ## Claim C2: the lag feature builder -/

/-- C2.  For every input table whose target column is fully populated and
every `n_lags = n ≥ 1`, `CyclicalFeatures.transform` produces
`input row count − n` output rows, preserving relative row order (output
row `i` is derived from input row `i + n`), each surviving row's
`target_lag_k` column equals the target value exactly `k` rows earlier in
the original order for all `k ∈ [1, n]`, and the raw target column is
removed from the output. -/
theorem C2_lag_feature_builder (pv : String) (n : ℕ) (X : Frame)
    (hn : 1 ≤ n) (hall : ∀ c ∈ X.map (getCol pv), c.isSome = true) :
    (cyclicalTransform pv n X).length = X.length - n ∧
    ∀ i, i < (cyclicalTransform pv n X).length →
      ((cyclicalTransform pv n X).getD i default).ts = (X.getD (n + i) default).ts ∧
      (∀ k, 1 ≤ k → k ≤ n →
        lookupCell (.lag k) ((cyclicalTransform pv n X).getD i default).cells =
          getCol pv (X.getD (n + i - k) default)) ∧
      hasCol (.named pv) ((cyclicalTransform pv n X).getD i default).cells = false := by
  have hlen := cyclicalTransform_length pv n X hall
  refine ⟨hlen, ?_⟩
  intro i hi
  have hi2 : i < X.length - n := hlen ▸ hi
  have hgd := cyclicalTransform_getD pv n X hall i hi2
  refine ⟨?_, ?_, ?_⟩
  · rw [hgd, delCol_ts, featRow_ts]
  · intro k hk1 hkn
    rw [hgd, lookupCell_delCol_other _ _ _ (by simp),
        featRow_lookup_lag n _ (n + i) k _ hk1 hkn, shiftVal,
        if_pos (by omega)]
    exact getD_map_of_lt (getCol pv) X (n + i - k) (by omega) default none
  · rw [hgd]
    exact hasCol_delCol_self _ _

/-- Concrete two-row fixture for witnesses: a fully populated target
column named `"p"`. -/
def wRow1 : Row := ⟨⟨2024, 6, 1, 10⟩, [(.named "p", some (.num 3))]⟩

/-- Second fixture row, one hour later. -/
def wRow2 : Row := ⟨⟨2024, 6, 1, 11⟩, [(.named "p", some (.num 5))]⟩

/-- Two-row fixture frame. -/
def wX2 : Frame := [wRow1, wRow2]

/-- Witness for C2 at the concrete two-row frame with `n_lags = 1`. -/
theorem C2_lag_feature_builder_witness :
    ((1 : ℕ) ≤ 1 ∧ ∀ c ∈ wX2.map (getCol "p"), c.isSome = true) ∧
    ((cyclicalTransform "p" 1 wX2).length = wX2.length - 1 ∧
    ∀ i, i < (cyclicalTransform "p" 1 wX2).length →
      ((cyclicalTransform "p" 1 wX2).getD i default).ts = (wX2.getD (1 + i) default).ts ∧
      (∀ k, 1 ≤ k → k ≤ 1 →
        lookupCell (.lag k) ((cyclicalTransform "p" 1 wX2).getD i default).cells =
          getCol "p" (wX2.getD (1 + i - k) default)) ∧
      hasCol (.named "p") ((cyclicalTransform "p" 1 wX2).getD i default).cells = false) :=
  ⟨⟨Nat.le_refl 1, by decide⟩,
   C2_lag_feature_builder "p" 1 wX2 (Nat.le_refl 1) (by decide)⟩

/-! ## Claim C1: trainer label alignment -/

/-- C1 counterexample.  With a fully populated 1-row history and
`n_lags = 1` the transform yields 0 feature rows, but
`y.iloc[-0:]` is the *whole* target series (Python: `-0 == 0`), so the
aligned target has length 1 ≠ 0: the claimed length equality fails. -/
theorem C1_label_alignment_counterexample :
    (∀ c ∈ ([wRow1] : Frame).map (getCol "p"), c.isSome = true) ∧
    (trainXtrans [wRow1] "p" 1).length = 0 ∧
    (trainYaligned [wRow1] "p" 1).length = 1 := by decide

/-- C1 (amended: the input must have more than `n_lags` rows, as the
spec's Trainer contract requires).  After the transform, the aligned
target has the same length as the transformed features, and the `i`-th
aligned label is the target value of the `(i + n_lags)`-th original row. -/
theorem C1_label_alignment (pv : String) (n : ℕ) (df : Frame)
    (hall : ∀ c ∈ df.map (getCol pv), c.isSome = true)
    (hlen : n < df.length) :
    (trainYaligned df pv n).length = (trainXtrans df pv n).length ∧
    ∀ i, i < (trainXtrans df pv n).length →
      (trainYaligned df pv n).getD i none = (df.map (getCol pv)).getD (i + n) none := by
  have hXlen : (trainXtrans df pv n).length = df.length - n :=
    cyclicalTransform_length pv n df hall
  have hmap : (df.map (getCol pv)).length = df.length := List.length_map _ _
  have hY : trainYaligned df pv n = (df.map (getCol pv)).drop n := by
    unfold trainYaligned ilocNeg
    rw [hXlen, if_neg (by omega), hmap]
    have : df.length - (df.length - n) = n := by omega
    rw [this]
  constructor
  · rw [hY, List.length_drop, hmap, hXlen]
  · intro i _
    rw [hY, getD_drop, Nat.add_comm n i]

/-- Witness for C1 at the concrete two-row frame with `n_lags = 1`. -/
theorem C1_label_alignment_witness :
    ((∀ c ∈ wX2.map (getCol "p"), c.isSome = true) ∧ 1 < wX2.length) ∧
    ((trainYaligned wX2 "p" 1).length = (trainXtrans wX2 "p" 1).length ∧
    ∀ i, i < (trainXtrans wX2 "p" 1).length →
      (trainYaligned wX2 "p" 1).getD i none =
        (wX2.map (getCol "p")).getD (i + 1) none) :=
  ⟨⟨by decide, by decide⟩, C1_label_alignment "p" 1 wX2 (by decide) (by decide)⟩

/-! ## Claim C10: raw calendar columns survive into the output -/

/-- C10.  Every row of the transform's output carries, besides the sin/cos
pairs and the lag columns, the raw integer calendar columns `dt_hour`,
`dt_dayofyear` and `dt_month` with the row's own calendar attributes. -/
theorem C10_raw_calendar_columns (pv : String) (n : ℕ) (X : Frame) (r : Row)
    (hr : r ∈ cyclicalTransform pv n X) :
    lookupCell .dt_hour r.cells = some (.num (r.ts.hour : ℚ)) ∧
    lookupCell .dt_dayofyear r.cells = some (.num (dayOfYear r.ts : ℚ)) ∧
    lookupCell .dt_month r.cells = some (.num (r.ts.month : ℚ)) := by
  simp only [cyclicalTransform] at hr
  rcases List.mem_map.mp hr with ⟨r2, hr2mem, rfl⟩
  rcases List.mem_map.mp (List.mem_of_mem_filter hr2mem) with ⟨p, hpmem, rfl⟩
  refine ⟨?_, ?_, ?_⟩
  · rw [delCol_ts, featRow_ts, lookupCell_delCol_other _ _ _ (by simp), featRow,
        addLags_lookup_other _ _ _ _ _ (fun k => by simp), addDt_lookup_dt_hour]
  · rw [delCol_ts, featRow_ts, lookupCell_delCol_other _ _ _ (by simp), featRow,
        addLags_lookup_other _ _ _ _ _ (fun k => by simp), addDt_lookup_dt_dayofyear]
  · rw [delCol_ts, featRow_ts, lookupCell_delCol_other _ _ _ (by simp), featRow,
        addLags_lookup_other _ _ _ _ _ (fun k => by simp), addDt_lookup_dt_month]

/-- Witness for C10: the single output row of the concrete two-row frame
carries the raw calendar columns. -/
theorem C10_raw_calendar_columns_witness :
    lookupCell .dt_hour ((cyclicalTransform "p" 1 wX2).getD 0 default).cells =
      some (.num (((cyclicalTransform "p" 1 wX2).getD 0 default).ts.hour : ℚ)) ∧
    lookupCell .dt_dayofyear ((cyclicalTransform "p" 1 wX2).getD 0 default).cells =
      some (.num (dayOfYear ((cyclicalTransform "p" 1 wX2).getD 0 default).ts : ℚ)) ∧
    lookupCell .dt_month ((cyclicalTransform "p" 1 wX2).getD 0 default).cells =
      some (.num (((cyclicalTransform "p" 1 wX2).getD 0 default).ts.month : ℚ)) :=
  C10_raw_calendar_columns "p" 1 wX2 _ (getD_mem_of_lt _ 0 default (by decide))

/-! ## Slicing lemmas for the prediction loop -/

theorem take_one_drop (l : List α) (i : ℕ) (h : i < l.length) (d : α) :
    (l.drop i).take 1 = [l.getD i d] := by
  induction l generalizing i with
  | nil => simp at h
  | cons a l2 ih =>
    cases i with
    | zero => simp [List.take]
    | succ j =>
      rw [List.drop_succ_cons, List.getD_cons_succ]
      exact ih j (by simpa using h)

theorem ilocSlice_single (l : List α) (i : ℕ) (h : i < l.length) (d : α) :
    ilocSlice i (i + 1) l = [l.getD i d] := by
  unfold ilocSlice
  have h1 : i + 1 - i = 1 := by omega
  rw [h1]
  exact take_one_drop l i h d

theorem getD_append_left (l l2 : List α) (j : ℕ) (h : j < l.length) (d : α) :
    (l ++ l2).getD j d = l.getD j d := by
  induction l generalizing j with
  | nil => simp at h
  | cons a t ih =>
    cases j with
    | zero => rfl
    | succ m => exact ih m (by simpa using h)

theorem getD_append_last (l : List α) (a : α) (d : α) :
    (l ++ [a]).getD l.length d = a := by
  induction l with
  | nil => rfl
  | cons b t ih => simpa using ih

theorem pandasTail_length (k : ℕ) (xs : List α) :
    (pandasTail k xs).length = xs.length - (xs.length - k) := by
  rw [pandasTail, List.length_drop]

theorem mem_pandasTail (k : ℕ) (xs : List α) (a : α) (h : a ∈ pandasTail k xs) :
    a ∈ xs := by
  rw [pandasTail] at h
  exact List.mem_of_mem_drop h

theorem pandasTail_one (l : List α) (h : 0 < l.length) (d : α) :
    pandasTail 1 l = [l.getD (l.length - 1) d] := by
  rw [pandasTail]
  induction l with
  | nil => simp at h
  | cons a l2 ih =>
    cases l2 with
    | nil => rfl
    | cons b t =>
      have hstep : (a :: b :: t).length - 1 = (b :: t).length - 1 + 1 := by
        simp
      rw [hstep, List.drop_succ_cons, List.getD_cons_succ]
      exact ih (by simp)

theorem getLast?_eq_getD (l : List α) (h : 0 < l.length) (d : α) :
    l.getLast? = some (l.getD (l.length - 1) d) := by
  induction l with
  | nil => simp at h
  | cons a l2 ih =>
    cases l2 with
    | nil => rfl
    | cons b t =>
      rw [List.getLast?_cons_cons, ih (by simp)]
      have hstep : (a :: b :: t).length - 1 = (b :: t).length - 1 + 1 := by simp
      rw [hstep, List.getD_cons_succ]

/-! ## The per-step feature window of `predict_future` -/

theorem stepRowSlice_single (pv : String) (future : Frame) (i : ℕ) (ph : Cell)
    (hi : i < future.length) :
    stepRowSlice pv future i ph = [(future.getD i default).set (.named pv) ph] := by
  rw [stepRowSlice, ilocSlice_single future i hi default]
  rfl

theorem getCol_set_self (pv : String) (r : Row) (ph : Cell) :
    getCol pv (r.set (.named pv) ph) = ph :=
  lookupCell_set_self r _ ph

theorem stepConcat_length (pv : String) (future df : Frame) (i : ℕ) (ph : Cell)
    (hi : i < future.length) :
    (stepConcat pv future df i ph).length = (pandasTail 24 df).length + 1 := by
  rw [stepConcat, List.length_append, stepRowSlice_single pv future i ph hi]
  rfl

theorem pandasTail_all_some (pv : String) (k : ℕ) (df : Frame)
    (hall : ∀ c ∈ df.map (getCol pv), c.isSome = true) :
    ∀ c ∈ (pandasTail k df).map (getCol pv), c.isSome = true := by
  intro c hc
  rcases List.mem_map.mp hc with ⟨r, hr, rfl⟩
  exact hall _ (List.mem_map_of_mem _ (mem_pandasTail k df r hr))

theorem pandasTail_length_ge (k n : ℕ) (xs : List α) (hnk : n ≤ k)
    (hxs : n ≤ xs.length) : n ≤ (pandasTail k xs).length := by
  rw [pandasTail_length]
  omega

theorem stepConcat_all_some (pv : String) (future df : Frame) (i : ℕ) (ph : Cell)
    (hall : ∀ c ∈ df.map (getCol pv), c.isSome = true)
    (hi : i < future.length) (hph : ph.isSome = true) :
    ∀ c ∈ (stepConcat pv future df i ph).map (getCol pv), c.isSome = true := by
  intro c hc
  rw [stepConcat, stepRowSlice_single pv future i ph hi, List.map_append] at hc
  rcases List.mem_append.mp hc with h | h
  · exact pandasTail_all_some pv 24 df hall c h
  · have hc2 : c = getCol pv ((future.getD i default).set (.named pv) ph) := by
      simpa using h
    rw [hc2, getCol_set_self]
    exact hph

theorem stepFeatures_eq (pv : String) (n : ℕ) (future df : Frame) (i : ℕ) (ph : Cell)
    (hn1 : 1 ≤ n) (hn24 : n ≤ 24) (hdf : n ≤ df.length)
    (hall : ∀ c ∈ df.map (getCol pv), c.isSome = true)
    (hi : i < future.length) (hph : ph.isSome = true) :
    stepFeatures pv n future df i ph =
      [delCol (.named pv)
        (featRow n ((stepConcat pv future df i ph).map (getCol pv))
          ((stepConcat pv future df i ph).length - 1)
          ((future.getD i default).set (.named pv) ph))] := by
  have hWsome := stepConcat_all_some pv future df i ph hall hi hph
  have hWlen := stepConcat_length pv future df i ph hi
  have hge : n ≤ (pandasTail 24 df).length := pandasTail_length_ge 24 n df hn24 hdf
  have houtlen := cyclicalTransform_length pv n (stepConcat pv future df i ph) hWsome
  have hpos : 0 < (cyclicalTransform pv n (stepConcat pv future df i ph)).length := by
    rw [houtlen, hWlen]
    omega
  rw [stepFeatures, pandasTail_one _ hpos default]
  have hidx : (cyclicalTransform pv n (stepConcat pv future df i ph)).length - 1 <
      (stepConcat pv future df i ph).length - n := by
    rw [houtlen]
    omega
  rw [cyclicalTransform_getD pv n _ hWsome _ hidx]
  have harith : n + ((cyclicalTransform pv n (stepConcat pv future df i ph)).length - 1) =
      (stepConcat pv future df i ph).length - 1 := by
    rw [houtlen, hWlen]
    omega
  rw [harith]
  have hlast : (stepConcat pv future df i ph).getD
      ((stepConcat pv future df i ph).length - 1) default =
      (future.getD i default).set (.named pv) ph := by
    rw [stepConcat, stepRowSlice_single pv future i ph hi]
    have : (pandasTail 24 df ++ [(future.getD i default).set (.named pv) ph]).length - 1 =
        (pandasTail 24 df).length := by
      rw [List.length_append]
      simp
    rw [this, getD_append_last]
  rw [hlast]

theorem stepFeatures_lag_cells (pv : String) (n : ℕ) (future df : Frame) (i : ℕ) (ph : Cell)
    (hn1 : 1 ≤ n) (hn24 : n ≤ 24) (hdf : n ≤ df.length)
    (hall : ∀ c ∈ df.map (getCol pv), c.isSome = true)
    (hi : i < future.length) (hph : ph.isSome = true)
    (k : ℕ) (hk1 : 1 ≤ k) (hkn : k ≤ n) :
    lookupCell (.lag k)
        (delCol (.named pv)
          (featRow n ((stepConcat pv future df i ph).map (getCol pv))
            ((stepConcat pv future df i ph).length - 1)
            ((future.getD i default).set (.named pv) ph))).cells =
      ((stepConcat pv future df i ph).map (getCol pv)).getD
        ((stepConcat pv future df i ph).length - 1 - k) none ∧
    (((stepConcat pv future df i ph).map (getCol pv)).getD
        ((stepConcat pv future df i ph).length - 1 - k) none).isSome = true := by
  have hWsome := stepConcat_all_some pv future df i ph hall hi hph
  have hWlen := stepConcat_length pv future df i ph hi
  have hge : n ≤ (pandasTail 24 df).length := pandasTail_length_ge 24 n df hn24 hdf
  constructor
  · rw [lookupCell_delCol_other _ _ _ (by simp),
        featRow_lookup_lag _ _ _ _ _ hk1 hkn, shiftVal,
        if_pos (by omega)]
  · apply hWsome
    apply getD_mem_of_lt
    rw [List.length_map]
    omega

/-! ## Claim C8: the hard-coded 24-row lag window -/

/-- C8 (amended: the guarantee requires `n_lags ≤ 24` — the window size is
the hard-coded literal 24 of line 108, not sized to `n_lags` — and a
history of at least `n_lags` fully populated rows).  Then at every step
the concatenated window supplies at least `n_lags` rows of history and the
transform keeps exactly one row: the step's placeholder row with all lag
cells valid. -/
theorem C8_lag_window (P : FittedPipeline) (future df : Frame) (i : ℕ) (ph : Cell)
    (hn1 : 1 ≤ P.n_lags) (hn24 : P.n_lags ≤ 24) (hdf : P.n_lags ≤ df.length)
    (hall : ∀ c ∈ df.map (getCol P.pv_output), c.isSome = true)
    (hi : i < future.length) (hph : ph.isSome = true) :
    P.n_lags ≤ (pandasTail 24 df).length ∧
    ∃ r, stepFeatures P.pv_output P.n_lags future df i ph = [r] ∧
      r.ts = (future.getD i default).ts ∧
      ∀ k, 1 ≤ k → k ≤ P.n_lags → (lookupCell (.lag k) r.cells).isSome = true := by
  refine ⟨pandasTail_length_ge 24 P.n_lags df hn24 hdf, ?_⟩
  refine ⟨_, stepFeatures_eq P.pv_output P.n_lags future df i ph hn1 hn24 hdf hall hi hph,
    ?_, ?_⟩
  · rw [delCol_ts, featRow_ts, Row.set_ts]
  · intro k hk1 hkn
    have h2 := stepFeatures_lag_cells P.pv_output P.n_lags future df i ph
      hn1 hn24 hdf hall hi hph k hk1 hkn
    rw [h2.1]
    exact h2.2

/-- Fixture artifact with `n_lags = 1`. -/
def wP1 : FittedPipeline := ⟨"p", 1, fun _ => 0⟩

/-- Fixture future-weather frame with one row and no target column. -/
def wFut1 : Frame := [⟨⟨2024, 6, 1, 12⟩, [(.named "w", some (.num 20))]⟩]

/-- Fixture future-weather frame with two rows. -/
def wFut2 : Frame :=
  [⟨⟨2024, 6, 1, 12⟩, [(.named "w", some (.num 20))]⟩,
   ⟨⟨2024, 6, 1, 13⟩, [(.named "w", some (.num 21))]⟩]

/-- Witness for C8 at the concrete fixtures. -/
theorem C8_lag_window_witness :
    ((1 : ℕ) ≤ wP1.n_lags ∧ wP1.n_lags ≤ 24 ∧ wP1.n_lags ≤ wX2.length ∧
      (∀ c ∈ wX2.map (getCol wP1.pv_output), c.isSome = true) ∧
      0 < wFut1.length ∧ (some (RVal.num 7) : Cell).isSome = true) ∧
    (wP1.n_lags ≤ (pandasTail 24 wX2).length ∧
    ∃ r, stepFeatures wP1.pv_output wP1.n_lags wFut1 wX2 0 (some (.num 7)) = [r] ∧
      r.ts = (wFut1.getD 0 default).ts ∧
      ∀ k, 1 ≤ k → k ≤ wP1.n_lags → (lookupCell (.lag k) r.cells).isSome = true) :=
  ⟨⟨by decide, by decide, by decide, by decide, by decide, by decide⟩,
   C8_lag_window wP1 wFut1 wX2 0 (some (.num 7)) (by decide) (by decide) (by decide)
     (by decide) (by decide) (by decide)⟩

/-- Fixture artifact with `n_lags = 25`, exceeding the hard-coded window. -/
def wP25 : FittedPipeline := ⟨"p", 25, fun _ => 0⟩

/-- 25-row fully populated history fixture. -/
def wDf25 : Frame :=
  (List.range 25).map (fun d => ⟨⟨2024, 1, d + 1, 0⟩, [(.named "p", some (.num 1))]⟩)

set_option maxRecDepth 40000 in
set_option maxHeartbeats 2000000 in
/-- C8 counterexample.  With an artifact trained with `n_lags = 25` and an
ample 25-row fully populated history, the hard-coded `df.tail(24)` window
supplies only 24 < 25 rows of history, the transform keeps no row at all
(the placeholder row's feature vector is dropped), and the prediction call
fails. -/
theorem C8_lag_window_counterexample :
    wP25.n_lags = 25 ∧
    wP25.n_lags ≤ wDf25.length ∧
    (∀ c ∈ wDf25.map (getCol wP25.pv_output), c.isSome = true) ∧
    (pandasTail 24 wDf25).length = 24 ∧
    stepFeatures wP25.pv_output wP25.n_lags wFut1 wDf25 0 (some (.num 1)) = [] ∧
    predict_future wP25 wDf25 wFut1 1 = .error .emptyFeatures :=
  ⟨rfl, by decide, by decide, by decide, rfl, rfl⟩

/-! ## Loop lemmas for `predict_future` -/

theorem runSteps_ok_length (P : FittedPipeline) (future : Frame) :
    ∀ (n i : ℕ) (df : Frame) (preds : List ℚ),
      runSteps P future i n df = .ok preds → preds.length = n := by
  intro n
  induction n with
  | zero =>
    intro i df preds h
    rw [runSteps] at h
    cases h
    rfl
  | succ m ih =>
    intro i df preds h
    rw [runSteps] at h
    split at h
    · cases h
    · split at h
      · cases h
      · rename_i hrec
        cases h
        have := ih _ _ _ hrec
        simp only [List.length_cons]
        omega

theorem predictStep_error_cases (P : FittedPipeline) (future df : Frame) (i : ℕ)
    (e : PredictError) (h : predictStep P future df i = .error e) :
    e = .emptyHistory ∨ e = .emptyFeatures := by
  rw [predictStep] at h
  split at h
  · cases h
    exact Or.inl rfl
  · split at h
    · cases h
      exact Or.inr rfl
    · cases h

theorem runSteps_error_cases (P : FittedPipeline) (future : Frame) :
    ∀ (n i : ℕ) (df : Frame) (e : PredictError),
      runSteps P future i n df = .error e →
      e = .emptyHistory ∨ e = .emptyFeatures := by
  intro n
  induction n with
  | zero =>
    intro i df e h
    rw [runSteps] at h
    cases h
  | succ m ih =>
    intro i df e h
    rw [runSteps] at h
    split at h
    · rename_i hps
      cases h
      exact predictStep_error_cases P future df i e hps
    · split at h
      · rename_i hrec
        cases h
        exact ih _ _ _ hrec
      · cases h

/-! ## Claim C5: short future-weather input -/

/-- C5 (amended: the call does fail and returns no forecast, but with a
generic downstream error — the empty-window sklearn error or the pandas
unequal-column-length error — never a dedicated `InsufficientFutureData`
error, which the source does not define).  Whenever `future_weather` has
fewer rows than `steps`, `predict_future` returns an error, and that error
is not `insufficientFutureData`. -/
theorem C5_insufficient_future (P : FittedPipeline) (history future : Frame)
    (steps : ℕ) (hlt : future.length < steps) :
    ∃ e, predict_future P history future steps = .error e ∧
      e ≠ PredictError.insufficientFutureData := by
  rw [predict_future]
  split
  next e heq =>
    refine ⟨e, rfl, ?_⟩
    rcases runSteps_error_cases P future steps 0 history e heq with h | h <;>
      (rw [h]; intro hc; cases hc)
  next preds heq =>
    have hplen := runSteps_ok_length P future steps 0 history preds heq
    refine ⟨.lengthMismatch, ?_, fun hc => by cases hc⟩
    have hcond : ¬ ((List.map (fun x => x.ts) future).take steps).length = preds.length := by
      rw [List.length_take, List.length_map, hplen]
      omega
    simp only [if_neg hcond]

/-- C5 counterexample.  With an empty future-weather frame and
`steps = 1`, the call fails with the sklearn empty-feature error, not with
a dedicated `InsufficientFutureData`. -/
theorem C5_insufficient_future_counterexample :
    ([] : Frame).length < 1 ∧
    predict_future wP1 [wRow1] [] 1 = .error .emptyFeatures ∧
    PredictError.emptyFeatures ≠ PredictError.insufficientFutureData :=
  ⟨by decide, rfl, by decide⟩

/-- Witness for C5: an empty future frame with two requested steps. -/
theorem C5_insufficient_future_witness :
    ([] : Frame).length < 2 ∧
    ∃ e, predict_future wP1 [wRow1] [] 2 = .error e ∧
      e ≠ PredictError.insufficientFutureData :=
  ⟨by decide, C5_insufficient_future wP1 [wRow1] [] 2 (by decide)⟩

/-! ## Claim C7: shape of a successful forecast -/

/-- C7.  Every successful `predict_future(..., steps = k)` call returns
exactly `k` (timestamp, value) pairs whose timestamps are the first `k`
timestamps of `future_weather`'s index, in timestamp order (given a
chronologically sorted future index, as the spec's data contract
assumes). -/
theorem C7_forecast_shape (P : FittedPipeline) (history future : Frame) (k : ℕ)
    (res : List (Timestamp × ℚ))
    (hsort : (future.map (·.ts)).Pairwise tsLt)
    (hok : predict_future P history future k = .ok res) :
    res.length = k ∧
    res.map (·.1) = (future.map (·.ts)).take k ∧
    (res.map (·.1)).Pairwise tsLt := by
  rw [predict_future] at hok
  split at hok
  · cases hok
  · rename_i preds heq
    have hplen := runSteps_ok_length P future k 0 history preds heq
    have hok2 : (if ((future.map (·.ts)).take k).length = preds.length then
        Except.ok (((future.map (·.ts)).take k).zip preds)
        else (Except.error PredictError.lengthMismatch :
          Except PredictError (List (Timestamp × ℚ)))) = Except.ok res := hok
    split at hok2
    · rename_i hif
      cases hok2
      have hmap : (((future.map (·.ts)).take k).zip preds).map (·.1) =
          (future.map (·.ts)).take k :=
        List.map_fst_zip _ _ (le_of_eq hif)
      refine ⟨?_, hmap, ?_⟩
      · rw [List.length_zip, hif, hplen]
        exact Nat.min_self k
      · rw [hmap]
        exact List.Pairwise.sublist (List.take_sublist k _) hsort
    · cases hok2

/-- Witness for C7: a successful one-step forecast over the concrete
fixtures. -/
theorem C7_forecast_shape_witness :
    ((wFut1.map (·.ts)).Pairwise tsLt ∧
      predict_future wP1 [wRow1] wFut1 1 = .ok [(⟨2024, 6, 1, 12⟩, 0)]) ∧
    (([((⟨2024, 6, 1, 12⟩ : Timestamp), (0 : ℚ))]).length = 1 ∧
      ([((⟨2024, 6, 1, 12⟩ : Timestamp), (0 : ℚ))]).map (·.1) =
        (wFut1.map (·.ts)).take 1 ∧
      (([((⟨2024, 6, 1, 12⟩ : Timestamp), (0 : ℚ))]).map (·.1)).Pairwise tsLt) :=
  ⟨⟨by decide, rfl⟩, C7_forecast_shape wP1 [wRow1] wFut1 1 _ (by decide) rfl⟩

/-! ## Claim C6: unknown regressor name -/

theorem resolveModule_eq_none (name : String) (h : name ∉ registeredRegressors) :
    resolveModule name = none := by
  simp only [registeredRegressors, List.mem_cons, List.not_mem_nil, or_false,
    not_or] at h
  obtain ⟨h1, h2, h3, h4, h5, h6, h7, h8, h9⟩ := h
  simp [resolveModule, h1, h2, h3, h4, h5, h6, h7, h8, h9]

/-- C6 (amended: the call does fail for every unregistered name, but with
the `UnboundLocalError` of the unassigned `module` variable — the
`if/elif` chain of lines 54–65 has no `else` — not with a dedicated
`UnknownRegressorKind` error, which the source does not define). -/
theorem C6_unknown_regressor (df : Frame) (pv name path : String) (n : ℕ)
    (h : name ∉ registeredRegressors) :
    train_model df pv name path n = .error .unboundLocalModule ∧
    TrainError.unboundLocalModule ≠ TrainError.unknownRegressorKind := by
  refine ⟨?_, fun hc => by cases hc⟩
  unfold train_model
  rw [resolveModule_eq_none name h]

/-- C6 counterexample: an unregistered name fails with the unbound-local
error, not a dedicated `UnknownRegressorKind`. -/
theorem C6_unknown_regressor_counterexample :
    ("FooRegressor" ∉ registeredRegressors) ∧
    train_model wX2 "p" "FooRegressor" "model.pkl" 1 = .error .unboundLocalModule ∧
    TrainError.unboundLocalModule ≠ TrainError.unknownRegressorKind :=
  ⟨by decide, rfl, by decide⟩

/-- Witness for C6 at a second unregistered name. -/
theorem C6_unknown_regressor_witness :
    ("SomeUnknownModel" ∉ registeredRegressors) ∧
    (train_model wX2 "p" "SomeUnknownModel" "model.pkl" 1 = .error .unboundLocalModule ∧
      TrainError.unboundLocalModule ≠ TrainError.unknownRegressorKind) :=
  ⟨by decide, C6_unknown_regressor wX2 "p" "SomeUnknownModel" "model.pkl" 1 (by decide)⟩

/-! ## Claim C3: the prediction is fed back as lag context -/

theorem pandasTail_getD_last (k : ℕ) (xs : List α)
    (h : 0 < (pandasTail k xs).length) (d : α) :
    (pandasTail k xs).getD ((pandasTail k xs).length - 1) d =
      xs.getD (xs.length - 1) d := by
  rw [pandasTail_length] at h
  rw [pandasTail, getD_drop]
  congr 1
  rw [List.length_drop]
  omega

theorem stepConcat_lag_source (pv : String) (future df : Frame) (i : ℕ) (ph : Cell)
    (hi : i < future.length) (hdf : 0 < df.length) :
    ((stepConcat pv future df i ph).map (getCol pv)).getD
        ((stepConcat pv future df i ph).length - 1 - 1) none =
      getCol pv (df.getD (df.length - 1) default) := by
  rw [stepConcat, stepRowSlice_single pv future i ph hi, List.map_append]
  have htl : 0 < (pandasTail 24 df).length := by
    rw [pandasTail_length]
    omega
  have hidx : (pandasTail 24 df ++ [(future.getD i default).set (.named pv) ph]).length
      - 1 - 1 = (pandasTail 24 df).length - 1 := by
    rw [List.length_append]
    simp
  rw [hidx, getD_append_left _ _ _ (by rw [List.length_map]; omega),
      getD_map_of_lt (getCol pv) _ _ (by omega) default none,
      pandasTail_getD_last 24 df htl default]

theorem predictStep_ok (P : FittedPipeline) (future df : Frame) (i : ℕ) (ph : Cell)
    (hph : placeholderCell P.pv_output df = some ph) (r : Row) (rest : List Row)
    (hfeat : stepFeatures P.pv_output P.n_lags future df i ph = r :: rest) :
    predictStep P future df i =
      .ok (P.predictOne r,
        df ++ (stepRowSlice P.pv_output future i ph).map
          (fun rr => rr.set (.named P.pv_output) (some (.num (P.predictOne r))))) := by
  simp only [predictStep, hph, hfeat]

/-- C3.  At step 0 the prediction `y0` is appended to the growing history
with the step-0 exogenous values, so that at step 1 the placeholder is
`y0`, the single feature row fed to the regressor has `y0` — the step-0
*prediction*, not the placeholder used at step 0 — as its lag-1 cell, and
step 1 predicts from exactly that row. -/
theorem C3_recursive_feedback (P : FittedPipeline) (history future : Frame)
    (hn1 : 1 ≤ P.n_lags) (hn24 : P.n_lags ≤ 24)
    (hlen : P.n_lags ≤ history.length)
    (hall : ∀ c ∈ history.map (getCol P.pv_output), c.isSome = true)
    (hfut : 2 ≤ future.length) :
    ∃ y0 df1, predictStep P future history 0 = .ok (y0, df1) ∧
      placeholderCell P.pv_output df1 = some (some (.num y0)) ∧
      ∃ r df2,
        stepFeatures P.pv_output P.n_lags future df1 1 (some (.num y0)) = [r] ∧
        lookupCell (.lag 1) r.cells = some (.num y0) ∧
        predictStep P future df1 1 = .ok (P.predictOne r, df2) := by
  have hfut0 : 0 < future.length := by omega
  have hfut1 : 1 < future.length := by omega
  have hmaplen : 0 < (history.map (getCol P.pv_output)).length := by
    rw [List.length_map]
    omega
  have hph0 : placeholderCell P.pv_output history =
      some ((history.map (getCol P.pv_output)).getD
        ((history.map (getCol P.pv_output)).length - 1) none) :=
    getLast?_eq_getD _ hmaplen none
  have hph0some : ((history.map (getCol P.pv_output)).getD
      ((history.map (getCol P.pv_output)).length - 1) none).isSome = true :=
    hall _ (getD_mem_of_lt _ _ _ (by omega))
  have hfeat0 := stepFeatures_eq P.pv_output P.n_lags future history 0 _
    hn1 hn24 hlen hall hfut0 hph0some
  have hstep0 := predictStep_ok P future history 0 _ hph0 _ [] hfeat0
  have key : ∀ (y0 : ℚ) (rowY : Row), getCol P.pv_output rowY = some (.num y0) →
      P.n_lags ≤ (history ++ [rowY]).length →
      (∀ c ∈ (history ++ [rowY]).map (getCol P.pv_output), c.isSome = true) →
      placeholderCell P.pv_output (history ++ [rowY]) = some (some (.num y0)) ∧
      ∃ r df2,
        stepFeatures P.pv_output P.n_lags future (history ++ [rowY]) 1
          (some (.num y0)) = [r] ∧
        lookupCell (.lag 1) r.cells = some (.num y0) ∧
        predictStep P future (history ++ [rowY]) 1 = .ok (P.predictOne r, df2) := by
    intro y0 rowY hget hlen1 hall1
    have hph1 : placeholderCell P.pv_output (history ++ [rowY]) =
        some (some (.num y0)) := by
      rw [placeholderCell, List.map_append, List.map_cons, List.map_nil,
        List.getLast?_concat, hget]
    have hfeat1 := stepFeatures_eq P.pv_output P.n_lags future (history ++ [rowY]) 1
      (some (.num y0)) hn1 hn24 hlen1 hall1 hfut1 rfl
    refine ⟨hph1, _, _, hfeat1, ?_,
      predictStep_ok P future _ 1 _ hph1 _ [] hfeat1⟩
    have hlag := (stepFeatures_lag_cells P.pv_output P.n_lags future
      (history ++ [rowY]) 1 (some (.num y0)) hn1 hn24 hlen1 hall1 hfut1 rfl
      1 (Nat.le_refl 1) hn1).1
    rw [hlag, stepConcat_lag_source P.pv_output future (history ++ [rowY]) 1
      (some (.num y0)) hfut1 (by rw [List.length_append]; simp)]
    have hidx : (history ++ [rowY]).length - 1 = history.length := by
      rw [List.length_append]
      simp
    rw [hidx, getD_append_last, hget]
  refine ⟨_, _, hstep0, ?_⟩
  rw [stepRowSlice_single P.pv_output future 0 _ hfut0, List.map_cons, List.map_nil]
  apply key
  · exact getCol_set_self _ _ _
  · rw [List.length_append]
    simp
    omega
  · intro c hc
    rw [List.map_append] at hc
    rcases List.mem_append.mp hc with h | h
    · exact hall c h
    · simp only [List.map_cons, List.map_nil, List.mem_singleton] at h
      subst h
      rw [getCol_set_self]
      rfl

/-- Witness for C3 at the concrete fixtures (one history row, `n_lags = 1`,
two future rows). -/
theorem C3_recursive_feedback_witness :
    ((1 : ℕ) ≤ wP1.n_lags ∧ wP1.n_lags ≤ 24 ∧ wP1.n_lags ≤ ([wRow1] : Frame).length ∧
      (∀ c ∈ ([wRow1] : Frame).map (getCol wP1.pv_output), c.isSome = true) ∧
      2 ≤ wFut2.length) ∧
    (∃ y0 df1, predictStep wP1 wFut2 [wRow1] 0 = .ok (y0, df1) ∧
      placeholderCell wP1.pv_output df1 = some (some (.num y0)) ∧
      ∃ r df2,
        stepFeatures wP1.pv_output wP1.n_lags wFut2 df1 1 (some (.num y0)) = [r] ∧
        lookupCell (.lag 1) r.cells = some (.num y0) ∧
        predictStep wP1 wFut2 df1 1 = .ok (wP1.predictOne r, df2)) :=
  ⟨⟨by decide, by decide, by decide, by decide, by decide⟩,
   C3_recursive_feedback wP1 [wRow1] wFut2 (by decide) (by decide) (by decide)
     (by decide) (by decide)⟩

/-! ## Claim C9: the caller's history frame is never mutated -/

theorem getD_set_other (l : List α) (i j : ℕ) (x d : α) (hne : j ≠ i) :
    (l.set i x).getD j d = l.getD j d := by
  induction l generalizing i j with
  | nil => rfl
  | cons a t ih =>
    cases i with
    | zero =>
      cases j with
      | zero => exact absurd rfl hne
      | succ m => rfl
    | succ m =>
      cases j with
      | zero => rfl
      | succ m2 =>
        rw [List.set_cons_succ, List.getD_cons_succ, List.getD_cons_succ]
        exact ih m m2 (fun hc => hne (by omega))

theorem Store.alloc_handle (σ : Store) (f : Frame) : (σ.alloc f).2 = σ.frames.length :=
  rfl

theorem Store.alloc_length (σ : Store) (f : Frame) :
    (σ.alloc f).1.frames.length = σ.frames.length + 1 := by
  show (σ.frames ++ [f]).length = σ.frames.length + 1
  rw [List.length_append]
  rfl

theorem Store.getF_alloc_lt (σ : Store) (f : Frame) (h : ℕ)
    (hh : h < σ.frames.length) : (σ.alloc f).1.getF h = σ.getF h := by
  show (σ.frames ++ [f]).getD h [] = σ.frames.getD h []
  exact getD_append_left _ _ _ hh _

theorem Store.setColIP_length (σ : Store) (h : ℕ) (c : ColName) (v : Cell) :
    (σ.setColIP h c v).frames.length = σ.frames.length := by
  show (σ.frames.set h _).length = σ.frames.length
  rw [List.length_set]

theorem Store.getF_setColIP_other (σ : Store) (h h2 : ℕ) (c : ColName) (v : Cell)
    (hne : h ≠ h2) : (σ.setColIP h2 c v).getF h = σ.getF h := by
  show (σ.frames.set h2 _).getD h [] = σ.frames.getD h []
  exact getD_set_other _ _ _ _ _ hne

theorem predictStepST_preserves (P : FittedPipeline) (futH dfH i : ℕ) (σ : Store)
    (h : ℕ) (hh : h < σ.frames.length) :
    (predictStepST P futH dfH i σ).2.getF h = σ.getF h ∧
    σ.frames.length ≤ (predictStepST P futH dfH i σ).2.frames.length := by
  rw [predictStepST]
  split
  · exact ⟨rfl, Nat.le_refl _⟩
  · rename_i ph hph
    have hs2get : (((σ.alloc (ilocSlice i (i + 1) (σ.getF futH))).1.setColIP
        (σ.alloc (ilocSlice i (i + 1) (σ.getF futH))).2 (.named P.pv_output) ph)).getF h =
        σ.getF h := by
      rw [Store.getF_setColIP_other _ _ _ _ _
          (by rw [Store.alloc_handle]; omega),
        Store.getF_alloc_lt σ _ h hh]
    have hs2len : (((σ.alloc (ilocSlice i (i + 1) (σ.getF futH))).1.setColIP
        (σ.alloc (ilocSlice i (i + 1) (σ.getF futH))).2 (.named P.pv_output) ph)).frames.length =
        σ.frames.length + 1 := by
      rw [Store.setColIP_length, Store.alloc_length]
    split
    · exact ⟨hs2get, by rw [hs2len]; omega⟩
    · rename_i f fs hf
      constructor
      · rw [Store.getF_alloc_lt _ _ h
            (by rw [Store.setColIP_length, Store.alloc_length, hs2len]; omega),
          Store.getF_setColIP_other _ _ _ _ _
            (by rw [Store.alloc_handle, hs2len]; omega),
          Store.getF_alloc_lt _ _ h (by rw [hs2len]; omega),
          hs2get]
      · rw [Store.alloc_length, Store.setColIP_length, Store.alloc_length, hs2len]
        omega

theorem runStepsST_preserves (P : FittedPipeline) (futH : ℕ) :
    ∀ (n i dfH : ℕ) (σ : Store) (h : ℕ), h < σ.frames.length →
      (runStepsST P futH i n dfH σ).2.getF h = σ.getF h ∧
      σ.frames.length ≤ (runStepsST P futH i n dfH σ).2.frames.length := by
  intro n
  induction n with
  | zero => intro i dfH σ h hh; exact ⟨rfl, Nat.le_refl _⟩
  | succ m ih =>
    intro i dfH σ h hh
    rw [runStepsST]
    have hpres := predictStepST_preserves P futH dfH i σ h hh
    split
    · rename_i e σ2 hps
      simp only [hps] at hpres
      exact hpres
    · rename_i y dfH2 σ2 hps
      simp only [hps] at hpres
      have hih := ih (i + 1) dfH2 σ2 h (by omega)
      split
      · rename_i e σ3 hrec
        simp only [hrec] at hih
        exact ⟨hih.1.trans hpres.1, Nat.le_trans hpres.2 hih.2⟩
      · rename_i rest σ3 hrec
        simp only [hrec] at hih
        exact ⟨hih.1.trans hpres.1, Nat.le_trans hpres.2 hih.2⟩

theorem ite_pair_snd {c : Prop} [Decidable c] {β : Type} (a b : β) (s : Store) :
    (if c then (a, s) else (b, s)).2 = s := by
  split <;> rfl

/-- C9.  `predict_future` never mutates the caller-supplied `history_df`:
in the heap model, after a call (successful or failing) the frame behind
the caller's history handle is unchanged — the growing feedback buffer is
a private copy (`df = history_df.copy()`, line 99). -/
theorem C9_no_history_mutation (P : FittedPipeline) (histH futH steps : ℕ)
    (σ : Store) (hh : histH < σ.frames.length) :
    (predictFutureST P histH futH steps σ).2.getF histH = σ.getF histH := by
  rw [predictFutureST]
  have h1 : histH < (σ.alloc (σ.getF histH)).1.frames.length := by
    rw [Store.alloc_length]
    omega
  have hrun := runStepsST_preserves P futH steps 0 (σ.alloc (σ.getF histH)).2
    (σ.alloc (σ.getF histH)).1 histH h1
  have halloc := Store.getF_alloc_lt σ (σ.getF histH) histH hh
  split
  · rename_i e σ2 hrec
    simp only [hrec] at hrun
    exact hrun.1.trans halloc
  · rename_i preds σ2 hrec
    simp only [hrec] at hrun
    show (if (((σ2.getF futH).map (·.ts)).take steps).length = preds.length then
        ((Except.ok ((((σ2.getF futH).map (·.ts)).take steps).zip preds) :
          Except PredictError (List (Timestamp × ℚ))), σ2)
      else (Except.error PredictError.lengthMismatch, σ2)).2.getF histH = σ.getF histH
    rw [ite_pair_snd]
    exact hrun.1.trans halloc

/-- Witness for C9: a concrete two-frame store; the history frame behind
handle 0 is untouched by a one-step prediction. -/
theorem C9_no_history_mutation_witness :
    0 < (Store.mk [[wRow1], wFut1]).frames.length ∧
    (predictFutureST wP1 0 1 1 ⟨[[wRow1], wFut1]⟩).2.getF 0 =
      (Store.mk [[wRow1], wFut1]).getF 0 :=
  ⟨by decide, C9_no_history_mutation wP1 0 1 1 ⟨[[wRow1], wFut1]⟩ (by decide)⟩

/-! ## Claim C4: the day-of-year denominator -/

theorem lookupCell_append_singleton_other (c c' : ColName) (v : Cell)
    (l : List (ColName × Cell)) (h : c' ≠ c) :
    lookupCell c' (l ++ [(c, v)]) = lookupCell c' l := by
  induction l with
  | nil =>
    have hcc : ¬ c = c' := fun hh => h hh.symm
    simp [hcc]
  | cons p ps ih =>
    by_cases hp : p.1 = c'
    · simp [hp]
    · simp only [List.cons_append, lookupCell_cons, hp, if_false, ih]

theorem lookupCell_setCellList_self (c : ColName) (v : Cell)
    (l : List (ColName × Cell)) : lookupCell c (setCellList c v l) = v := by
  rw [setCellList]
  split
  next h => exact lookupCell_setCells_self c v l h
  next h =>
    rw [lookupCell_append_right c l _ (by simpa using h)]
    simp

theorem lookupCell_setCellList_other (c c' : ColName) (v : Cell)
    (l : List (ColName × Cell)) (h : c' ≠ c) :
    lookupCell c' (setCellList c v l) = lookupCell c' l := by
  rw [setCellList]
  split
  · exact lookupCell_setCells_other c c' v l h
  · exact lookupCell_append_singleton_other c c' v l h

/-- C4 (amended: the leap-aware day-of-year denominator — 366 exactly when
the row's year is a leap year, 365 otherwise — holds for the
`calculator.py` transformer as instantiated by `compute` with the
`"leap"` sentinel; the `forecast_service.py` transformer instead
hard-codes denominator 365 for every row). -/
theorem C4_leap_denominator (ts : Timestamp) (cells : List (ColName × Cell)) :
    (∃ r2, calcRowTransform ["plan_dtime"] computeCycles
        ⟨[("plan_dtime", ts)], cells⟩ = some r2 ∧
      lookupCell (.calcSin "plan_dtime" "dayofyear") r2.cells =
        some (.sinv (2 * (dayOfYear ts : ℚ) /
          ((if isLeapYear ts.year then 366 else 365 : ℕ) : ℚ))) ∧
      lookupCell (.calcCos "plan_dtime" "dayofyear") r2.cells =
        some (.cosv (2 * (dayOfYear ts : ℚ) /
          ((if isLeapYear ts.year then 366 else 365 : ℕ) : ℚ)))) ∧
    (∀ r : Row,
      lookupCell .dt_dayofyear_sin (addDt r).cells =
        some (.sinv (2 * (dayOfYear r.ts : ℚ) / 365)) ∧
      lookupCell .dt_dayofyear_cos (addDt r).cells =
        some (.cosv (2 * (dayOfYear r.ts : ℚ) / 365))) := by
  constructor
  · refine ⟨_, rfl, ?_, ?_⟩
    · rw [lookupCell_setCellList_other _ _ _ _ (by simp),
        lookupCell_setCellList_self]
    · rw [lookupCell_setCellList_self]
  · intro r
    exact ⟨addDt_lookup_doy_sin r, addDt_lookup_doy_cos r⟩

/-- C4 counterexample.  On 2024-12-31 — day 366 of a leap year — the
`forecast_service.py` encoder computes the day-of-year sine with
denominator 365, and the resulting real value differs from the leap-aware
value `sin(2π·366/366)`: the claim fails for every row of this encoder
whose day of year lies beyond the 365-day circle. -/
theorem C4_leap_denominator_counterexample :
    isLeapYear 2024 = true ∧
    dayOfYear ⟨2024, 12, 31, 0⟩ = 366 ∧
    lookupCell .dt_dayofyear_sin (addDt ⟨⟨2024, 12, 31, 0⟩, []⟩).cells =
      some (.sinv (2 * 366 / 365)) ∧
    ∀ x y : ℝ, RVal.denotes (.sinv (2 * 366 / 365)) x →
      RVal.denotes (.sinv (2 * 366 / 366)) y → x ≠ y := by
  refine ⟨by decide, by decide, ?_, ?_⟩
  · rw [addDt_lookup_doy_sin]
    norm_num [show dayOfYear ⟨2024, 12, 31, 0⟩ = 366 from by decide]
  intro x y hx hy
  rw [RVal.denotes] at hx hy
  subst hx
  subst hy
  have h1 : ((2 * 366 / 365 : ℚ) : ℝ) = 732 / 365 := by norm_num
  have h2 : ((2 * 366 / 366 : ℚ) : ℝ) = 2 := by norm_num
  rw [h1, h2]
  have hval : (732 / 365 : ℝ) * Real.pi = 2 / 365 * Real.pi + 2 * Real.pi := by
    ring
  rw [hval, Real.sin_add_two_pi]
  have hpos : 0 < Real.sin (2 / 365 * Real.pi) := by
    apply Real.sin_pos_of_pos_of_lt_pi
    · positivity
    · nlinarith [Real.pi_pos]
  have hzero : Real.sin (2 * Real.pi) = 0 := Real.sin_two_pi
  rw [hzero]
  exact ne_of_gt hpos
